import Mathlib

/-!
Verification development for the school-records portal backend data model
(`api/models.py`, `api/admin.py`).

The repository's substance is declarative data modelling; the operational
logic around it (enrollment capacity checking, lifecycle transitions, grade
aggregation) is described in the specification and embedded here from its
words where the repository under `src/` contains only the declarations.
Definitions translated directly from source declarations cite the source
location; definitions modelled from the specification say so in their doc
comment.
-/

namespace Portal

/-- Enrollment status enumeration, from `Enrollment.STATUS_CHOICES`
(models.py lines 228-234). -/
inductive EStatus where
  | pending
  | approved
  | enrolled
  | dropped
  | completed
deriving DecidableEq, Repr

/-- The capacity-relevant fields of `CourseOffering` (models.py lines
185-186): `max_slots` and `enrolled_count` are `PositiveIntegerField`s,
i.e. non-negative integers. -/
structure CourseOffering where
  max_slots : Nat
  enrolled_count : Nat
deriving DecidableEq, Repr

/-- Derived property `CourseOffering.available_slots` (models.py lines
196-198): `max_slots - enrolled_count`, integer subtraction. -/
def CourseOffering.available_slots (o : CourseOffering) : Int :=
  (o.max_slots : Int) - (o.enrolled_count : Int)

/-- Errors surfaced by the enrollment registry operations, from the error
taxonomy of spec section 7: uniqueness violation (with the conflicting key
identified), capacity exceeded, invalid transition, terminal state. -/
inductive RegError where
  | duplicateEnrollment (student : Nat)
  | capacityExceeded
  | notFound
  | invalidTransition
  | terminalState
deriving DecidableEq, Repr

/-- One course offering together with its enrollment rows, each row keyed
by the student identity: the per-offering slice of the `Enrollment` table
(models.py lines 227-244; the `(student, course_offering)` pair is declared
`unique_together` at line 243). -/
structure Reg where
  offering : CourseOffering
  enrollments : List (Nat × EStatus)
deriving DecidableEq, Repr

/-- Status of the enrollment row of a given student, if any. -/
def findStatus : List (Nat × EStatus) → Nat → Option EStatus
  | [], _ => none
  | (t, st) :: rest, s => if t = s then some st else findStatus rest s

/-- Replace the status of the enrollment row of a given student. -/
def setStatus : List (Nat × EStatus) → Nat → EStatus → List (Nat × EStatus)
  | [], _, _ => []
  | (t, st) :: rest, s, new =>
    if t = s then (t, new) :: rest else (t, st) :: setStatus rest s new

/-- Modelled from the spec: section 4.1's enrollment creation, which is not
in `src/` (the repository holds only the model declarations). Creating an
Enrollment is rejected with a uniqueness violation naming the conflicting
key when a row for the same `(student, offering)` pair already exists
(models.py line 243 declares the constraint; spec section 7(a)), rejected
with a capacity-exceeded error when `available_slots <= 0` unless the
caller performs an administrative override, and otherwise inserts the row
and increments `enrolled_count`. -/
def enroll (r : Reg) (s : Nat) (override : Bool) : Except RegError Reg :=
  if r.enrollments.any (fun e => e.1 == s) then
    .error (.duplicateEnrollment s)
  else if override = false ∧ r.offering.available_slots ≤ 0 then
    .error .capacityExceeded
  else
    .ok { offering := { r.offering with enrolled_count := r.offering.enrolled_count + 1 },
          enrollments := (s, .enrolled) :: r.enrollments }

/-- Modelled from the spec: section 4.1/4.4's "accept" transition, not in
`src/`. Accepting moves a pending or approved enrollment into `enrolled`
and increments `enrolled_count`, with the same conditional capacity check
as creation (spec section 4.1: the increment fails if the post-increment
count would exceed capacity); accepting an already-enrolled row is a no-op
(spec section 4.4), and accepting from a terminal status is rejected. -/
def accept (r : Reg) (s : Nat) : Except RegError Reg :=
  match findStatus r.enrollments s with
  | none => .error .notFound
  | some .enrolled => .ok r
  | some .pending =>
    if r.offering.available_slots ≤ 0 then .error .capacityExceeded
    else
      .ok { offering := { r.offering with enrolled_count := r.offering.enrolled_count + 1 },
            enrollments := setStatus r.enrollments s .enrolled }
  | some .approved =>
    if r.offering.available_slots ≤ 0 then .error .capacityExceeded
    else
      .ok { offering := { r.offering with enrolled_count := r.offering.enrolled_count + 1 },
            enrollments := setStatus r.enrollments s .enrolled }
  | some .dropped => .error .terminalState
  | some .completed => .error .terminalState

/-- Modelled from the spec: sections 4.1/4.4 and 8's drop, not in `src/`.
Dropping an `enrolled` enrollment marks it `dropped` and decrements the
offering's `enrolled_count`; a repeated drop is a no-op (idempotent, spec
section 8); dropping from any other status is an invalid transition. -/
def drop (r : Reg) (s : Nat) : Except RegError Reg :=
  match findStatus r.enrollments s with
  | none => .error .notFound
  | some .enrolled =>
    .ok { offering := { r.offering with enrolled_count := r.offering.enrolled_count - 1 },
          enrollments := setStatus r.enrollments s .dropped }
  | some .dropped => .ok r
  | some .pending => .error .invalidTransition
  | some .approved => .error .invalidTransition
  | some .completed => .error .terminalState

/-- The (non-override) enrollment/drop operations of spec section 8's
first testable property. -/
inductive RegOp where
  | enrollOp (s : Nat)
  | acceptOp (s : Nat)
  | dropOp (s : Nat)
deriving DecidableEq, Repr

/-- Apply one operation; a rejected attempt leaves the store unchanged
(spec section 7: every check-and-write succeeds or fails atomically). -/
def applyOp (r : Reg) : RegOp → Reg
  | .enrollOp s =>
    match enroll r s false with
    | .ok r2 => r2
    | .error _ => r
  | .acceptOp s =>
    match accept r s with
    | .ok r2 => r2
    | .error _ => r
  | .dropOp s =>
    match drop r s with
    | .ok r2 => r2
    | .error _ => r

/-- Run a sequence of enrollment/drop operations. -/
def runOps (r : Reg) : List RegOp → Reg
  | [] => r
  | op :: ops => runOps (applyOp r op) ops

theorem findStatus_any {l : List (Nat × EStatus)} {s : Nat} {st : EStatus}
    (h : findStatus l s = some st) : l.any (fun e => e.1 == s) = true := by
  induction l with
  | nil => simp [findStatus] at h
  | cons hd tl ih =>
    obtain ⟨t, st0⟩ := hd
    by_cases ht : t = s
    · simp [List.any_cons, ht]
    · simp only [findStatus, if_neg ht] at h
      simp [List.any_cons, ih h]

theorem mem_any {l : List (Nat × EStatus)} {s : Nat} {st : EStatus}
    (h : (s, st) ∈ l) : l.any (fun e => e.1 == s) = true := by
  induction l with
  | nil => simp at h
  | cons hd tl ih =>
    rcases List.mem_cons.mp h with h1 | h2
    · simp [← h1]
    · simp [List.any_cons, ih h2]

theorem setStatus_keys (l : List (Nat × EStatus)) (s : Nat) (st : EStatus) :
    (setStatus l s st).map Prod.fst = l.map Prod.fst := by
  induction l with
  | nil => rfl
  | cons hd tl ih =>
    obtain ⟨t, st0⟩ := hd
    by_cases ht : t = s
    · simp [setStatus, ht]
    · simp [setStatus, ht, ih]

theorem findStatus_setStatus {l : List (Nat × EStatus)} {s : Nat} {st : EStatus}
    (h : findStatus l s = some st) (st2 : EStatus) :
    findStatus (setStatus l s st2) s = some st2 := by
  induction l with
  | nil => simp [findStatus] at h
  | cons hd tl ih =>
    obtain ⟨t, st0⟩ := hd
    by_cases ht : t = s
    · simp [setStatus, findStatus, ht]
    · simp only [findStatus, if_neg ht] at h
      simp [setStatus, findStatus, ht, ih h]

/-- The sole capacity invariant: `enrolled_count ≤ max_slots`
(spec section 3's CourseOffering invariant). -/
def Inv (r : Reg) : Prop :=
  r.offering.enrolled_count ≤ r.offering.max_slots

theorem enroll_inv {r r2 : Reg} {s : Nat} ( _h : Inv r)
    (he : enroll r s false = .ok r2) : Inv r2 := by
  unfold enroll at he
  split at he
  · simp at he
  · split at he
    · simp at he
    · next hcap =>
      have hlt : r.offering.enrolled_count < r.offering.max_slots := by
        rcases not_and_or.mp hcap with h1 | h2
        · exact absurd rfl h1
        · have h3 := lt_of_not_le h2
          unfold CourseOffering.available_slots at h3
          omega
      injection he with h4
      subst h4
      simp only [Inv]
      omega

theorem accept_inv {r r2 : Reg} {s : Nat} (h : Inv r)
    (he : accept r s = .ok r2) : Inv r2 := by
  unfold accept at he
  split at he
  · simp at he
  · injection he with h4
    subst h4
    exact h
  · split at he
    · simp at he
    · next hcap =>
      have h3 := lt_of_not_le hcap
      unfold CourseOffering.available_slots at h3
      injection he with h4
      subst h4
      simp only [Inv] at h ⊢
      omega
  · split at he
    · simp at he
    · next hcap =>
      have h3 := lt_of_not_le hcap
      unfold CourseOffering.available_slots at h3
      injection he with h4
      subst h4
      simp only [Inv] at h ⊢
      omega
  · simp at he
  · simp at he

theorem drop_inv {r r2 : Reg} {s : Nat} (h : Inv r)
    (he : drop r s = .ok r2) : Inv r2 := by
  unfold drop at he
  split at he
  · simp at he
  · injection he with h4
    subst h4
    simp only [Inv] at h ⊢
    omega
  · injection he with h4
    subst h4
    exact h
  · simp at he
  · simp at he
  · simp at he

theorem applyOp_inv {r : Reg} (h : Inv r) (op : RegOp) : Inv (applyOp r op) := by
  cases op with
  | enrollOp s =>
    simp only [applyOp]
    cases he : enroll r s false with
    | ok r2 => exact enroll_inv h he
    | error e => exact h
  | acceptOp s =>
    simp only [applyOp]
    cases he : accept r s with
    | ok r2 => exact accept_inv h he
    | error e => exact h
  | dropOp s =>
    simp only [applyOp]
    cases he : drop r s with
    | ok r2 => exact drop_inv h he
    | error e => exact h

theorem runOps_inv {r : Reg} (h : Inv r) (ops : List RegOp) : Inv (runOps r ops) := by
  induction ops generalizing r with
  | nil => exact h
  | cons op ops ih => exact ih (applyOp_inv h op)

theorem enroll_ok {r r2 : Reg} {s : Nat} {ov : Bool}
    (he : enroll r s ov = .ok r2) :
    r.enrollments.any (fun e => e.1 == s) = false ∧
    r2.enrollments = (s, .enrolled) :: r.enrollments := by
  unfold enroll at he
  split at he
  · simp at he
  · next hdup =>
    split at he
    · simp at he
    · injection he with h4
      subst h4
      exact ⟨Bool.eq_false_iff.mpr hdup, rfl⟩

theorem accept_ok_keys {r r2 : Reg} {s : Nat} (he : accept r s = .ok r2) :
    r2.enrollments.map Prod.fst = r.enrollments.map Prod.fst := by
  unfold accept at he
  split at he
  · simp at he
  · injection he with h4
    subst h4
    rfl
  · split at he
    · simp at he
    · injection he with h4
      subst h4
      exact setStatus_keys r.enrollments _ _
  · split at he
    · simp at he
    · injection he with h4
      subst h4
      exact setStatus_keys r.enrollments _ _
  · simp at he
  · simp at he

theorem drop_ok_keys {r r2 : Reg} {s : Nat} (he : drop r s = .ok r2) :
    r2.enrollments.map Prod.fst = r.enrollments.map Prod.fst := by
  unfold drop at he
  split at he
  · simp at he
  · injection he with h4
    subst h4
    exact setStatus_keys r.enrollments _ _
  · injection he with h4
    subst h4
    rfl
  · simp at he
  · simp at he
  · simp at he

theorem any_eq_false_not_mem {l : List (Nat × EStatus)} {s : Nat}
    (h : l.any (fun e => e.1 == s) = false) : s ∉ l.map Prod.fst := by
  intro hs
  rcases List.mem_map.mp hs with ⟨⟨t, st⟩, hmem, ht⟩
  have ht2 : t = s := ht
  subst ht2
  have h2 := mem_any hmem
  rw [h] at h2
  exact Bool.false_ne_true h2

/-- The scenario offering of spec section 8: `max_slots = 2`,
`enrolled_count = 0`, no enrollment rows yet. -/
def offering2 : Reg :=
  { offering := { max_slots := 2, enrolled_count := 0 }, enrollments := [] }

/-- C1: creating an Enrollment against an offering with
`available_slots ≤ 0` is rejected with an explicit capacity-exceeded
error (absent an administrative override), leaving `enrolled_count`
unchanged; and on the spec section 8 scenario (`max_slots = 2`,
`enrolled_count = 0`) two successive enrollments succeed, taking
`enrolled_count` to 1 and then 2, while a third is rejected with
capacity-exceeded and `enrolled_count` stays 2. -/
theorem enroll_capacity_exceeded_rejected (r : Reg) (s : Nat)
    (hdup : r.enrollments.any (fun e => e.1 == s) = false)
    (hcap : r.offering.available_slots ≤ 0) :
    (enroll r s false = .error .capacityExceeded ∧
      (applyOp r (.enrollOp s)).offering.enrolled_count = r.offering.enrolled_count) ∧
    (enroll offering2 1 false
        = .ok { offering := { max_slots := 2, enrolled_count := 1 },
                enrollments := [(1, .enrolled)] } ∧
      (runOps offering2 [.enrollOp 1]).offering.enrolled_count = 1 ∧
      enroll (runOps offering2 [.enrollOp 1]) 2 false
        = .ok { offering := { max_slots := 2, enrolled_count := 2 },
                enrollments := [(2, .enrolled), (1, .enrolled)] } ∧
      (runOps offering2 [.enrollOp 1, .enrollOp 2]).offering.enrolled_count = 2 ∧
      enroll (runOps offering2 [.enrollOp 1, .enrollOp 2]) 3 false
        = .error .capacityExceeded ∧
      (runOps offering2 [.enrollOp 1, .enrollOp 2, .enrollOp 3]).offering.enrolled_count
        = 2) := by
  refine ⟨⟨?_, ?_⟩, rfl, rfl, rfl, rfl, rfl, rfl⟩
  · simp [enroll, hdup, hcap]
  · simp [applyOp, enroll, hdup, hcap]

/-- Witness for C1: a fully-booked zero-slot offering rejects enrollment of
student 1 and keeps its count, and the section 8 scenario holds. -/
theorem enroll_capacity_exceeded_rejected_witness :
    (enroll { offering := { max_slots := 0, enrolled_count := 0 }, enrollments := [] } 1 false
        = .error .capacityExceeded ∧
      (applyOp { offering := { max_slots := 0, enrolled_count := 0 }, enrollments := [] }
          (.enrollOp 1)).offering.enrolled_count
        = ({ offering := { max_slots := 0, enrolled_count := 0 },
             enrollments := [] } : Reg).offering.enrolled_count) ∧
    (enroll offering2 1 false
        = .ok { offering := { max_slots := 2, enrolled_count := 1 },
                enrollments := [(1, .enrolled)] } ∧
      (runOps offering2 [.enrollOp 1]).offering.enrolled_count = 1 ∧
      enroll (runOps offering2 [.enrollOp 1]) 2 false
        = .ok { offering := { max_slots := 2, enrolled_count := 2 },
                enrollments := [(2, .enrolled), (1, .enrolled)] } ∧
      (runOps offering2 [.enrollOp 1, .enrollOp 2]).offering.enrolled_count = 2 ∧
      enroll (runOps offering2 [.enrollOp 1, .enrollOp 2]) 3 false
        = .error .capacityExceeded ∧
      (runOps offering2 [.enrollOp 1, .enrollOp 2, .enrollOp 3]).offering.enrolled_count
        = 2) :=
  enroll_capacity_exceeded_rejected
    { offering := { max_slots := 0, enrolled_count := 0 }, enrollments := [] } 1
    (by decide) (by decide)

/-- C2: starting from any state satisfying `enrolled_count ≤ max_slots`,
after every sequence of enrollment, accept and drop operations the
offering still satisfies `0 ≤ enrolled_count ≤ max_slots` (the lower bound
is inherent in the non-negative `PositiveIntegerField` representation),
and the derived `available_slots` is never negative. -/
theorem enrolled_count_invariant (r : Reg) (ops : List RegOp)
    (h : r.offering.enrolled_count ≤ r.offering.max_slots) :
    (runOps r ops).offering.enrolled_count ≤ (runOps r ops).offering.max_slots ∧
    0 ≤ (runOps r ops).offering.available_slots := by
  have h2 := runOps_inv (show Inv r from h) ops
  simp only [Inv] at h2
  refine ⟨h2, ?_⟩
  unfold CourseOffering.available_slots
  omega

/-- Witness for C2: the invariant holds after a concrete operation
sequence on the two-slot offering. -/
theorem enrolled_count_invariant_witness :
    (runOps offering2
        [.enrollOp 1, .enrollOp 2, .dropOp 1, .enrollOp 3, .enrollOp 4]).offering.enrolled_count
      ≤ (runOps offering2
        [.enrollOp 1, .enrollOp 2, .dropOp 1, .enrollOp 3, .enrollOp 4]).offering.max_slots ∧
    0 ≤ (runOps offering2
        [.enrollOp 1, .enrollOp 2, .dropOp 1, .enrollOp 3, .enrollOp 4]).offering.available_slots :=
  enrolled_count_invariant offering2
    [.enrollOp 1, .enrollOp 2, .dropOp 1, .enrollOp 3, .enrollOp 4] (by decide)

/-- C3: when an enrollment row for `(student, offering)` already exists,
a second creation attempt for the same pair is rejected as a uniqueness
violation carrying the conflicting key, and the store is left unchanged;
moreover the at-most-one-row-per-pair property (distinct student keys
within the offering) is preserved by every operation. -/
theorem enrollment_pair_unique (r : Reg) (s : Nat) (st : EStatus) (ov : Bool) (op : RegOp)
    (hmem : (s, st) ∈ r.enrollments)
    (hnodup : (r.enrollments.map Prod.fst).Nodup) :
    enroll r s ov = .error (.duplicateEnrollment s) ∧
    applyOp r (.enrollOp s) = r ∧
    ((applyOp r op).enrollments.map Prod.fst).Nodup := by
  have hany := mem_any hmem
  refine ⟨?_, ?_, ?_⟩
  · simp [enroll, hany]
  · simp [applyOp, enroll, hany]
  · cases op with
    | enrollOp s2 =>
      simp only [applyOp]
      cases he : enroll r s2 false with
      | ok r2 =>
        obtain ⟨hfalse, hlist⟩ := enroll_ok he
        rw [hlist]
        exact List.nodup_cons.mpr ⟨any_eq_false_not_mem hfalse, hnodup⟩
      | error e => exact hnodup
    | acceptOp s2 =>
      simp only [applyOp]
      cases he : accept r s2 with
      | ok r2 => exact (accept_ok_keys he) ▸ hnodup
      | error e => exact hnodup
    | dropOp s2 =>
      simp only [applyOp]
      cases he : drop r s2 with
      | ok r2 => exact (drop_ok_keys he) ▸ hnodup
      | error e => exact hnodup

/-- Witness for C3: re-enrolling student 1, already enrolled in a concrete
offering, is rejected with the conflicting key and changes nothing, and
key uniqueness survives a subsequent drop. -/
theorem enrollment_pair_unique_witness :
    enroll { offering := { max_slots := 2, enrolled_count := 1 },
             enrollments := [(1, .enrolled)] } 1 false
      = .error (.duplicateEnrollment 1) ∧
    applyOp { offering := { max_slots := 2, enrolled_count := 1 },
              enrollments := [(1, .enrolled)] } (.enrollOp 1)
      = { offering := { max_slots := 2, enrolled_count := 1 },
          enrollments := [(1, .enrolled)] } ∧
    ((applyOp { offering := { max_slots := 2, enrolled_count := 1 },
                enrollments := [(1, .enrolled)] } (.dropOp 1)).enrollments.map Prod.fst).Nodup :=
  enrollment_pair_unique
    { offering := { max_slots := 2, enrolled_count := 1 }, enrollments := [(1, .enrolled)] }
    1 .enrolled false (.dropOp 1) (by decide) (by decide)

/-- C4: dropping an `enrolled` enrollment succeeds, decrements the
offering's `enrolled_count` by exactly one and marks the row `dropped`;
repeating the drop succeeds without decrementing again (idempotent); and
accepting a pending enrollment with a free slot increments
`enrolled_count` by one. -/
theorem drop_decrements_once_idempotent (r : Reg) (s : Nat) (r2 : Reg) (s2 : Nat)
    (hst : findStatus r.enrollments s = some .enrolled)
    (hpos : 0 < r.offering.enrolled_count)
    (hst2 : findStatus r2.enrollments s2 = some .pending)
    (hcap : 0 < r2.offering.available_slots) :
    (∃ r3, drop r s = .ok r3 ∧
       r3.offering.enrolled_count + 1 = r.offering.enrolled_count ∧
       findStatus r3.enrollments s = some .dropped ∧
       drop r3 s = .ok r3) ∧
    (∃ r4, accept r2 s2 = .ok r4 ∧
       r4.offering.enrolled_count = r2.offering.enrolled_count + 1) := by
  constructor
  · refine ⟨{ offering := { r.offering with enrolled_count := r.offering.enrolled_count - 1 },
              enrollments := setStatus r.enrollments s .dropped }, ?_, ?_, ?_, ?_⟩
    · unfold drop
      rw [hst]
    · simp only []
      omega
    · exact findStatus_setStatus hst .dropped
    · unfold drop
      rw [findStatus_setStatus hst .dropped]
  · refine ⟨{ offering := { r2.offering with enrolled_count := r2.offering.enrolled_count + 1 },
              enrollments := setStatus r2.enrollments s2 .enrolled }, ?_, rfl⟩
    unfold accept
    rw [hst2, if_neg (not_le.mpr hcap)]

/-- Witness for C4 on a concrete offering with one enrolled student and
one pending student. -/
theorem drop_decrements_once_idempotent_witness :
    (∃ r3, drop { offering := { max_slots := 2, enrolled_count := 1 },
                  enrollments := [(1, .enrolled)] } 1 = .ok r3 ∧
       r3.offering.enrolled_count + 1
         = ({ offering := { max_slots := 2, enrolled_count := 1 },
              enrollments := [(1, .enrolled)] } : Reg).offering.enrolled_count ∧
       findStatus r3.enrollments 1 = some .dropped ∧
       drop r3 1 = .ok r3) ∧
    (∃ r4, accept { offering := { max_slots := 2, enrolled_count := 0 },
                    enrollments := [(2, .pending)] } 2 = .ok r4 ∧
       r4.offering.enrolled_count
         = ({ offering := { max_slots := 2, enrolled_count := 0 },
              enrollments := [(2, .pending)] } : Reg).offering.enrolled_count + 1) :=
  drop_decrements_once_idempotent
    { offering := { max_slots := 2, enrolled_count := 1 }, enrollments := [(1, .enrolled)] } 1
    { offering := { max_slots := 2, enrolled_count := 0 }, enrollments := [(2, .pending)] } 2
    (by decide) (by decide) (by decide) (by decide)

/-- The aggregation-relevant fields of `Assessment` (models.py lines
321-322): `max_score` and `weight` are decimal fields, embedded as
rationals. -/
structure AssessmentRec where
  max_score : ℚ
  weight : ℚ
deriving DecidableEq, Repr

/-- Modelled from the spec: section 4.3's per-assessment contribution to
the computed term score, `score / max_score × weight`; the aggregation
itself is not in `src/` (the repository holds only the model
declarations and the admin percentage display). -/
def contribution (a : AssessmentRec) (score : ℚ) : ℚ :=
  score / a.max_score * a.weight

/-- The grading data of one Enrollment under one CourseOffering: the
offering's assessments keyed by id, the enrollment's recorded
`AssessmentScore` rows (models.py lines 334-342), and the manually posted
`Grade.final_grade` (models.py line 269, nullable). -/
structure GradingState where
  assessments : List (Nat × AssessmentRec)
  scores : List (Nat × ℚ)
  final_grade : Option ℚ
deriving DecidableEq, Repr

/-- Assessment record for a given assessment id, if any. -/
def lookupAssessment : List (Nat × AssessmentRec) → Nat → Option AssessmentRec
  | [], _ => none
  | (i, a) :: rest, aid => if i = aid then some a else lookupAssessment rest aid

/-- Modelled from the spec: section 4.3's computed term score over the
score rows of one enrollment, summing `score / max_score × weight` of the
assessment each score row is tied to. -/
def termScore (asmts : List (Nat × AssessmentRec)) : List (Nat × ℚ) → ℚ
  | [] => 0
  | (aid, sc) :: rest =>
    (match lookupAssessment asmts aid with
     | some a => contribution a sc
     | none => 0) + termScore asmts rest

/-- Computed term score of a grading state. -/
def computedTermScore (st : GradingState) : ℚ :=
  termScore st.assessments st.scores

/-- Modelled from the spec: section 4.3's continuous data-collection
stage — recording an `AssessmentScore` row. -/
def addScore (st : GradingState) (aid : Nat) (sc : ℚ) : GradingState :=
  { st with scores := (aid, sc) :: st.scores }

/-- Modelled from the spec: section 4.3's separate, manually triggered
grade posting. -/
def postGrade (st : GradingState) (g : ℚ) : GradingState :=
  { st with final_grade := some g }

/-- C5: the computed term score equals `Σ (score/max_score × weight)` over
the enrollment's score rows and their assessments; recording assessment
scores never writes `Grade.final_grade` (only the separate, manual
`postGrade` does); and the section 8 scenario holds: an assessment with
`max_score = 50` and `weight = 30` together with a score of 40 contributes
exactly `40/50 × 30 = 24`. -/
theorem computed_term_score_correct (st : GradingState) (aid : Nat) (sc g : ℚ) :
    computedTermScore st
      = (st.scores.map (fun p =>
          match lookupAssessment st.assessments p.1 with
          | some a => p.2 / a.max_score * a.weight
          | none => 0)).sum ∧
    (addScore st aid sc).final_grade = st.final_grade ∧
    (postGrade st g).final_grade = some g ∧
    contribution { max_score := 50, weight := 30 } 40 = 24 ∧
    computedTermScore
      { assessments := [(1, { max_score := 50, weight := 30 })],
        scores := [(1, 40)], final_grade := none } = 24 := by
  refine ⟨?_, rfl, rfl, by norm_num [contribution], ?_⟩
  · unfold computedTermScore
    induction st.scores with
    | nil => rfl
    | cons hd tl ih =>
      obtain ⟨a2, s2⟩ := hd
      simp only [termScore, List.map_cons, List.sum_cons, ih]
      cases lookupAssessment st.assessments a2 <;> simp [contribution]
  · show termScore _ _ = 24
    simp [termScore, lookupAssessment, contribution]
    norm_num

/-- The cascade-relevant slice of the store, rows identified by ids and
the foreign keys declared in models.py: offerings reference a course
(line 181, CASCADE), schedules (line 212, CASCADE), enrollments (line
237, CASCADE) and assessments (line 318, CASCADE) reference an offering,
grades (line 267, CASCADE) and evaluations (line 494, CASCADE) reference
an enrollment, and assessment scores reference an assessment and an
enrollment (lines 335-336, both CASCADE). Each row is `(own id, foreign
key id)`; assessment scores are `(own id, assessment id, enrollment
id)`. -/
structure DB where
  courses : List Nat
  offerings : List (Nat × Nat)
  schedules : List (Nat × Nat)
  enrollments : List (Nat × Nat)
  grades : List (Nat × Nat)
  assessments : List (Nat × Nat)
  assessmentScores : List (Nat × Nat × Nat)
  evaluations : List (Nat × Nat)
deriving DecidableEq, Repr

/-- An offering row with the given id belongs to course `c`. -/
def offeringDead (db : DB) (c : Nat) (oid : Nat) : Bool :=
  db.offerings.any (fun o => o.1 == oid && o.2 == c)

/-- An enrollment row with the given id belongs to an offering of
course `c`. -/
def enrollmentDead (db : DB) (c : Nat) (eid : Nat) : Bool :=
  db.enrollments.any (fun e => e.1 == eid && offeringDead db c e.2)

/-- An assessment row with the given id belongs to an offering of
course `c`. -/
def assessmentDead (db : DB) (c : Nat) (aid : Nat) : Bool :=
  db.assessments.any (fun a => a.1 == aid && offeringDead db c a.2)

/-- Deleting a Course under the `on_delete=CASCADE` edges declared in
models.py (offerings of the course; schedules, enrollments and
assessments of those offerings; grades, assessment scores and course
evaluations of those enrollments; assessment scores of those
assessments). -/
def deleteCourse (db : DB) (c : Nat) : DB :=
  { courses := db.courses.filter (fun x => !(x == c))
    offerings := db.offerings.filter (fun o => !(o.2 == c))
    schedules := db.schedules.filter (fun s => !(offeringDead db c s.2))
    enrollments := db.enrollments.filter (fun e => !(offeringDead db c e.2))
    grades := db.grades.filter (fun g => !(enrollmentDead db c g.2))
    assessments := db.assessments.filter (fun a => !(offeringDead db c a.2))
    assessmentScores := db.assessmentScores.filter
      (fun s => !(assessmentDead db c s.2.1 || enrollmentDead db c s.2.2))
    evaluations := db.evaluations.filter (fun v => !(enrollmentDead db c v.2)) }

theorem offeringDead_iff (db : DB) (c oid : Nat) :
    offeringDead db c oid = true ↔ ∃ o ∈ db.offerings, o.1 = oid ∧ o.2 = c := by
  simp [offeringDead, List.any_eq_true]

theorem alive_iff {b : Bool} {p : Prop} (h : b = true ↔ p) : (!b) = true ↔ ¬p := by
  rw [Bool.not_eq_true', Bool.eq_false_iff]
  exact not_congr h

theorem enrollmentDead_iff (db : DB) (c eid : Nat) :
    enrollmentDead db c eid = true
      ↔ ∃ e ∈ db.enrollments, e.1 = eid ∧ ∃ o ∈ db.offerings, o.1 = e.2 ∧ o.2 = c := by
  simp [enrollmentDead, List.any_eq_true, offeringDead_iff]

theorem assessmentDead_iff (db : DB) (c aid : Nat) :
    assessmentDead db c aid = true
      ↔ ∃ a ∈ db.assessments, a.1 = aid ∧ ∃ o ∈ db.offerings, o.1 = a.2 ∧ o.2 = c := by
  simp [assessmentDead, List.any_eq_true, offeringDead_iff]

/-- A store with one course, one offering of it and one assessment of
that offering. -/
def c6db : DB :=
  { courses := [1], offerings := [(10, 1)], schedules := [], enrollments := [],
    grades := [], assessments := [(20, 10)], assessmentScores := [], evaluations := [] }

/-- Counterexample to C6 as stated: deleting course 1 from `c6db` also
deletes assessment row `(20, 10)` — a row that is neither a
CourseOffering, a Schedule, an Enrollment nor a Grade — because
`Assessment.course_offering` is itself declared `on_delete=CASCADE`
(models.py line 318). So the cascade does delete rows other than the
kinds the claim lists. -/
theorem deleteCourse_deletes_assessments :
    (20, 10) ∈ c6db.assessments ∧ (deleteCourse c6db 1).assessments = [] := by
  constructor
  · decide
  · rfl

/-- C6 (amended): deleting Course `c` deletes exactly its own row, the
CourseOfferings of `c`, the Schedules, Enrollments and Assessments of
those offerings, the Grades and CourseEvaluations of those Enrollments,
and the AssessmentScores of those Assessments or Enrollments; every row
not tied to `c` through those edges survives. -/
theorem deleteCourse_cascade (db : DB) (c : Nat) :
    (∀ x, x ∈ (deleteCourse db c).courses ↔ x ∈ db.courses ∧ x ≠ c) ∧
    (∀ o, o ∈ (deleteCourse db c).offerings ↔ o ∈ db.offerings ∧ o.2 ≠ c) ∧
    (∀ s, s ∈ (deleteCourse db c).schedules
      ↔ s ∈ db.schedules ∧ ¬∃ o ∈ db.offerings, o.1 = s.2 ∧ o.2 = c) ∧
    (∀ e, e ∈ (deleteCourse db c).enrollments
      ↔ e ∈ db.enrollments ∧ ¬∃ o ∈ db.offerings, o.1 = e.2 ∧ o.2 = c) ∧
    (∀ a, a ∈ (deleteCourse db c).assessments
      ↔ a ∈ db.assessments ∧ ¬∃ o ∈ db.offerings, o.1 = a.2 ∧ o.2 = c) ∧
    (∀ g, g ∈ (deleteCourse db c).grades
      ↔ g ∈ db.grades ∧
        ¬∃ e ∈ db.enrollments, e.1 = g.2 ∧ ∃ o ∈ db.offerings, o.1 = e.2 ∧ o.2 = c) ∧
    (∀ v, v ∈ (deleteCourse db c).evaluations
      ↔ v ∈ db.evaluations ∧
        ¬∃ e ∈ db.enrollments, e.1 = v.2 ∧ ∃ o ∈ db.offerings, o.1 = e.2 ∧ o.2 = c) ∧
    (∀ sc, sc ∈ (deleteCourse db c).assessmentScores
      ↔ sc ∈ db.assessmentScores ∧
        ¬((∃ a ∈ db.assessments, a.1 = sc.2.1 ∧ ∃ o ∈ db.offerings, o.1 = a.2 ∧ o.2 = c) ∨
          (∃ e ∈ db.enrollments, e.1 = sc.2.2 ∧ ∃ o ∈ db.offerings, o.1 = e.2 ∧ o.2 = c))) := by
  refine ⟨?_, ?_, ?_, ?_, ?_, ?_, ?_, ?_⟩ <;> intro x
  · rw [show (deleteCourse db c).courses = db.courses.filter (fun y => !(y == c)) from rfl,
      List.mem_filter]
    exact and_congr_right fun _ => alive_iff (by simp)
  · rw [show (deleteCourse db c).offerings = db.offerings.filter (fun o => !(o.2 == c)) from
      rfl, List.mem_filter]
    exact and_congr_right fun _ => alive_iff (by simp)
  · rw [show (deleteCourse db c).schedules
      = db.schedules.filter (fun s => !(offeringDead db c s.2)) from rfl, List.mem_filter]
    exact and_congr_right fun _ => alive_iff (offeringDead_iff db c x.2)
  · rw [show (deleteCourse db c).enrollments
      = db.enrollments.filter (fun e => !(offeringDead db c e.2)) from rfl, List.mem_filter]
    exact and_congr_right fun _ => alive_iff (offeringDead_iff db c x.2)
  · rw [show (deleteCourse db c).assessments
      = db.assessments.filter (fun a => !(offeringDead db c a.2)) from rfl, List.mem_filter]
    exact and_congr_right fun _ => alive_iff (offeringDead_iff db c x.2)
  · rw [show (deleteCourse db c).grades
      = db.grades.filter (fun g => !(enrollmentDead db c g.2)) from rfl, List.mem_filter]
    exact and_congr_right fun _ => alive_iff (enrollmentDead_iff db c x.2)
  · rw [show (deleteCourse db c).evaluations
      = db.evaluations.filter (fun v => !(enrollmentDead db c v.2)) from rfl, List.mem_filter]
    exact and_congr_right fun _ => alive_iff (enrollmentDead_iff db c x.2)
  · rw [show (deleteCourse db c).assessmentScores
      = db.assessmentScores.filter
          (fun s => !(assessmentDead db c s.2.1 || enrollmentDead db c s.2.2)) from rfl,
      List.mem_filter]
    refine and_congr_right fun _ => alive_iff ?_
    rw [Bool.or_eq_true]
    exact or_congr (assessmentDead_iff db c x.2.1) (enrollmentDead_iff db c x.2.2)

/-- DocumentRequest status enumeration, from
`DocumentRequest.REQUEST_STATUS_CHOICES` (models.py lines 361-367). -/
inductive DocStatus where
  | pending
  | processing
  | ready
  | claimed
  | cancelled
deriving DecidableEq, Repr

/-- Feedback status enumeration, from `Feedback.STATUS_CHOICES`
(models.py lines 467-472). -/
inductive FbStatus where
  | pending
  | reviewed
  | resolved
  | closed
deriving DecidableEq, Repr

/-- Terminal DocumentRequest statuses (spec sections 4.4 and glossary:
claimed, cancelled). -/
def docTerminal : DocStatus → Bool
  | .claimed => true
  | .cancelled => true
  | _ => false

/-- Terminal Feedback status (spec section 4.4: closed). -/
def fbTerminal : FbStatus → Bool
  | .closed => true
  | _ => false

/-- Terminal Enrollment statuses (spec section 4.4: dropped, completed). -/
def enrTerminal : EStatus → Bool
  | .dropped => true
  | .completed => true
  | _ => false

/-- Forward edges of the DocumentRequest machine (spec section 4.4:
pending → processing → ready → claimed, or → cancelled from any
pre-claimed state). -/
def docAllowed : DocStatus → DocStatus → Bool
  | .pending, .processing => true
  | .processing, .ready => true
  | .ready, .claimed => true
  | .pending, .cancelled => true
  | .processing, .cancelled => true
  | .ready, .cancelled => true
  | _, _ => false

/-- Forward edges of the Feedback machine (spec section 4.4:
pending → reviewed → resolved → closed, monotonic). -/
def fbAllowed : FbStatus → FbStatus → Bool
  | .pending, .reviewed => true
  | .reviewed, .resolved => true
  | .resolved, .closed => true
  | _, _ => false

/-- Forward edges of the Enrollment machine (spec section 4.4:
pending → approved → enrolled → dropped or completed). -/
def enrAllowed : EStatus → EStatus → Bool
  | .pending, .approved => true
  | .approved, .enrolled => true
  | .enrolled, .dropped => true
  | .enrolled, .completed => true
  | _, _ => false

/-- Errors of the lifecycle machines (spec section 7(c)). -/
inductive TransErr where
  | terminalState
  | invalidTransition
deriving DecidableEq, Repr

/-- Modelled from the spec: section 4.4's lifecycle transition discipline,
not in `src/` (the repository declares only the status enumerations and
the admin console leaves `status` freely editable). Transitioning into
the current state is a no-op; any attempted transition out of a terminal
state is rejected with a terminal-state error; otherwise only the
machine's forward edges are accepted. -/
def transition {α : Type} [DecidableEq α] (terminal : α → Bool) (allowed : α → α → Bool)
    (cur t : α) : Except TransErr α :=
  if t = cur then .ok cur
  else if terminal cur then .error .terminalState
  else if allowed cur t then .ok t
  else .error .invalidTransition

/-- Attempt one transition; a rejected attempt leaves the state
unchanged. -/
def step {α : Type} [DecidableEq α] (terminal : α → Bool) (allowed : α → α → Bool)
    (cur t : α) : α :=
  match transition terminal allowed cur t with
  | .ok n => n
  | .error _ => cur

/-- Run a sequence of attempted transitions. -/
def runMachine {α : Type} [DecidableEq α] (terminal : α → Bool) (allowed : α → α → Bool) :
    α → List α → α
  | cur, [] => cur
  | cur, t :: ts => runMachine terminal allowed (step terminal allowed cur t) ts

theorem transition_terminal {α : Type} [DecidableEq α] (terminal : α → Bool)
    (allowed : α → α → Bool) {cur t : α} (h : terminal cur = true) (hne : t ≠ cur) :
    transition terminal allowed cur t = .error .terminalState := by
  unfold transition
  rw [if_neg hne, if_pos h]

theorem step_terminal {α : Type} [DecidableEq α] (terminal : α → Bool)
    (allowed : α → α → Bool) {cur : α} (h : terminal cur = true) (t : α) :
    step terminal allowed cur t = cur := by
  unfold step
  by_cases hne : t = cur
  · simp [transition, hne]
  · rw [transition_terminal terminal allowed h hne]

theorem runMachine_terminal {α : Type} [DecidableEq α] (terminal : α → Bool)
    (allowed : α → α → Bool) {cur : α} (h : terminal cur = true) (ts : List α) :
    runMachine terminal allowed cur ts = cur := by
  induction ts with
  | nil => rfl
  | cons t ts ih =>
    show runMachine terminal allowed (step terminal allowed cur t) ts = cur
    rw [step_terminal terminal allowed h t]
    exact ih

/-- C7: for each lifecycle entity (DocumentRequest, Feedback, Enrollment),
an attempted transition out of a terminal state (claimed, cancelled,
closed, dropped, completed) is rejected with a terminal-state error, and
no sequence of attempted transitions ever moves an entity out of a
terminal state. -/
theorem terminal_states_frozen
    (d t : DocStatus) (f u : FbStatus) (e v : EStatus)
    (ds : List DocStatus) (fs : List FbStatus) (es : List EStatus)
    (hd : docTerminal d = true) (hf : fbTerminal f = true) (he : enrTerminal e = true)
    (hdt : t ≠ d) (hfu : u ≠ f) (hev : v ≠ e) :
    transition docTerminal docAllowed d t = .error .terminalState ∧
    runMachine docTerminal docAllowed d ds = d ∧
    transition fbTerminal fbAllowed f u = .error .terminalState ∧
    runMachine fbTerminal fbAllowed f fs = f ∧
    transition enrTerminal enrAllowed e v = .error .terminalState ∧
    runMachine enrTerminal enrAllowed e es = e :=
  ⟨transition_terminal docTerminal docAllowed hd hdt,
   runMachine_terminal docTerminal docAllowed hd ds,
   transition_terminal fbTerminal fbAllowed hf hfu,
   runMachine_terminal fbTerminal fbAllowed hf fs,
   transition_terminal enrTerminal enrAllowed he hev,
   runMachine_terminal enrTerminal enrAllowed he es⟩

/-- Witness for C7: a claimed document request, a closed feedback and a
dropped enrollment each reject an attempted move and stay put under
concrete attempt sequences. -/
theorem terminal_states_frozen_witness :
    transition docTerminal docAllowed .claimed .pending = .error .terminalState ∧
    runMachine docTerminal docAllowed .claimed [.pending, .processing] = .claimed ∧
    transition fbTerminal fbAllowed .closed .pending = .error .terminalState ∧
    runMachine fbTerminal fbAllowed .closed [.reviewed] = .closed ∧
    transition enrTerminal enrAllowed .dropped .pending = .error .terminalState ∧
    runMachine enrTerminal enrAllowed .dropped [.enrolled, .completed] = .dropped :=
  terminal_states_frozen .claimed .pending .closed .pending .dropped .pending
    [.pending, .processing] [.reviewed] [.enrolled, .completed]
    rfl rfl rfl (by decide) (by decide) (by decide)

/-- The delete-relevant fields of `Faculty` (models.py lines 69-80):
identity, the unique `employee_id`, the nullable `department` reference
(declared `on_delete=SET_NULL` at line 70), and the `is_active` flag. -/
structure FacultyRec where
  fid : Nat
  employee_id : Nat
  department : Option Nat
  is_active : Bool
deriving DecidableEq, Repr

/-- The delete-relevant fields of `Department` (models.py lines 45-52):
identity and the nullable `head` reference to a Faculty (line 49,
`on_delete=SET_NULL`, reverse accessor `headed_department`). -/
structure DepartmentRec where
  did : Nat
  head : Option Nat
deriving DecidableEq, Repr

/-- The departments and faculty tables. -/
structure OrgDB where
  departments : List DepartmentRec
  faculty : List FacultyRec
deriving DecidableEq, Repr

/-- Deleting a Department: its row is removed, and — because
`Faculty.department` is declared `on_delete=SET_NULL` (models.py line
70) — every faculty row referencing it has its `department` set to null;
no faculty row is deleted. -/
def deleteDepartment (db : OrgDB) (d : Nat) : OrgDB :=
  { departments := db.departments.filter (fun dep => !(dep.did == d)),
    faculty := db.faculty.map (fun f =>
      if f.department = some d then { f with department := none } else f) }

/-- Faculty member 7, employee id 100, belonging to department 1. -/
def c8F : FacultyRec :=
  { fid := 7, employee_id := 100, department := some 1, is_active := true }

/-- Department 1, headed by faculty 7. -/
def c8D : DepartmentRec :=
  { did := 1, head := some 7 }

/-- A store with department 1 headed by faculty 7, who belongs to it. -/
def c8db : OrgDB :=
  { departments := [c8D], faculty := [c8F] }

/-- Counterexample to C8 as stated: in `c8db` department 1 is headed by
faculty 7, and faculty 7 belongs to department 1; deleting department 1
keeps faculty 7 but sets its `department` field from `some 1` to `none`
(`Faculty.department` is `on_delete=SET_NULL`, models.py line 70) — so
not all fields of F other than the head reference are unchanged. -/
theorem deleteDepartment_changes_head_department :
    c8D ∈ c8db.departments ∧ c8D.head = some c8F.fid ∧ c8F ∈ c8db.faculty ∧
    c8F.department = some 1 ∧
    (deleteDepartment c8db 1).faculty
      = [{ fid := 7, employee_id := 100, department := none, is_active := true }] :=
  ⟨by decide, by decide, by decide, by decide, rfl⟩

/-- C8 (amended): deleting Department `d`, headed by Faculty `F`, deletes
no faculty row; the department row is gone, so no Department names `F`
as head via it; `F` survives with `fid`, `employee_id` and `is_active`
unchanged, and its `department` reference is unchanged unless it
referenced `d`, in which case it is set to null. -/
theorem deleteDepartment_keeps_head (db : OrgDB) (d : Nat) (D : DepartmentRec)
    (F : FacultyRec) ( _hD : D ∈ db.departments) (hdid : D.did = d)
    ( _hhead : D.head = some F.fid) (hF : F ∈ db.faculty) :
    (deleteDepartment db d).faculty.length = db.faculty.length ∧
    D ∉ (deleteDepartment db d).departments ∧
    (∀ dep ∈ (deleteDepartment db d).departments, dep.did ≠ d) ∧
    (∃ F2 ∈ (deleteDepartment db d).faculty,
      F2.fid = F.fid ∧ F2.employee_id = F.employee_id ∧ F2.is_active = F.is_active ∧
      (F.department = some d → F2.department = none) ∧
      (F.department ≠ some d → F2.department = F.department)) := by
  refine ⟨List.length_map _ _, ?_, ?_, ?_⟩
  · intro hmem
    have h2 := (List.mem_filter.mp hmem).2
    simp [hdid] at h2
  · intro dep hmem
    have h2 := (List.mem_filter.mp hmem).2
    simpa using h2
  · refine ⟨if F.department = some d then { F with department := none } else F,
      List.mem_map_of_mem _ hF, ?_⟩
    by_cases hdep : F.department = some d
    · simp [hdep]
    · simp [hdep]

/-- Witness for C8 (amended) on the concrete one-department store. -/
theorem deleteDepartment_keeps_head_witness :
    (deleteDepartment c8db 1).faculty.length = c8db.faculty.length ∧
    c8D ∉ (deleteDepartment c8db 1).departments ∧
    (∀ dep ∈ (deleteDepartment c8db 1).departments, dep.did ≠ 1) ∧
    (∃ F2 ∈ (deleteDepartment c8db 1).faculty,
      F2.fid = c8F.fid ∧ F2.employee_id = c8F.employee_id ∧ F2.is_active = c8F.is_active ∧
      (c8F.department = some 1 → F2.department = none) ∧
      (c8F.department ≠ some 1 → F2.department = c8F.department)) :=
  deleteDepartment_keeps_head c8db 1 c8D c8F (by decide) rfl rfl (by decide)

/-- Forward direction of `Course.prerequisites` (models.py line 168, a
self-referential `ManyToManyField` with `symmetrical=False`): the
prerequisite edges are directed pairs `(course, prerequisite)`, and this
lists the courses directly required before `c`. -/
def prerequisitesOf (edges : List (Nat × Nat)) (c : Nat) : List Nat :=
  (edges.filter (fun e => e.1 == c)).map Prod.snd

/-- Inverse direction (the `prerequisite_for` reverse accessor declared
at models.py line 168): the courses for which `c` is a prerequisite. -/
def prerequisiteFor (edges : List (Nat × Nat)) (c : Nat) : List Nat :=
  (edges.filter (fun e => e.2 == c)).map Prod.fst

/-- C9: the prerequisite relation is directed: both directions are
queryable (their exact characterizations in terms of the stored edges),
membership of `a` in `b`'s prerequisites does not imply the converse
(the relation is not forced symmetric), and a course's prerequisite list
is distinct from the inverse list of courses it is a prerequisite
for. -/
theorem prerequisites_directed_asymmetric :
    (∀ (edges : List (Nat × Nat)) (a c : Nat),
      a ∈ prerequisitesOf edges c ↔ (c, a) ∈ edges) ∧
    (∀ (edges : List (Nat × Nat)) (a c : Nat),
      a ∈ prerequisiteFor edges c ↔ (a, c) ∈ edges) ∧
    (¬ ∀ (edges : List (Nat × Nat)) (a b : Nat),
      a ∈ prerequisitesOf edges b → b ∈ prerequisitesOf edges a) ∧
    (∃ (edges : List (Nat × Nat)) (c : Nat),
      prerequisitesOf edges c ≠ prerequisiteFor edges c) := by
  have h1 : ∀ (edges : List (Nat × Nat)) (a c : Nat),
      a ∈ prerequisitesOf edges c ↔ (c, a) ∈ edges := by
    intro edges a c
    simp only [prerequisitesOf, List.mem_map, List.mem_filter, beq_iff_eq]
    constructor
    · rintro ⟨⟨x, y⟩, ⟨hm, hx⟩, hy⟩
      have hx2 : x = c := hx
      have hy2 : y = a := hy
      rw [hx2, hy2] at hm
      exact hm
    · intro hm
      exact ⟨(c, a), ⟨hm, rfl⟩, rfl⟩
  have h2 : ∀ (edges : List (Nat × Nat)) (a c : Nat),
      a ∈ prerequisiteFor edges c ↔ (a, c) ∈ edges := by
    intro edges a c
    simp only [prerequisiteFor, List.mem_map, List.mem_filter, beq_iff_eq]
    constructor
    · rintro ⟨⟨x, y⟩, ⟨hm, hy⟩, hx⟩
      have hx2 : x = a := hx
      have hy2 : y = c := hy
      rw [hx2, hy2] at hm
      exact hm
    · intro hm
      exact ⟨(a, c), ⟨hm, rfl⟩, rfl⟩
  refine ⟨h1, h2, ?_, ⟨[(2, 1)], 2, by decide⟩⟩
  intro hall
  have h3 : (1 : Nat) ∈ prerequisitesOf [(2, 1)] 2 := by decide
  have h4 := hall [(2, 1)] 1 2 h3
  rw [h1] at h4
  simp at h4

/-- The admin percentage display for an `AssessmentScore`
(admin.py lines 260-266): when the assessment's `max_score` is positive
it shows `score / max_score × 100`, otherwise the placeholder dash
(embedded as `none`). -/
def percentageDisplay (max_score score : ℚ) : Option ℚ :=
  if 0 < max_score then some (score / max_score * 100) else none

/-- C10: the percentage display divides by `max_score` only under the
`max_score > 0` guard and shows the dash placeholder when `max_score`
is 0, so it never divides by zero. -/
theorem percentage_guards_division (m s : ℚ) (h : 0 < m) :
    percentageDisplay 0 s = none ∧
    percentageDisplay m s = some (s / m * 100) := by
  constructor
  · simp [percentageDisplay]
  · rw [percentageDisplay, if_pos h]

/-- Witness for C10: the section 8 scenario numbers, score 40 out of 50,
display 80 percent. -/
theorem percentage_guards_division_witness :
    percentageDisplay 0 40 = none ∧
    percentageDisplay 50 40 = some (40 / 50 * 100) :=
  percentage_guards_division 50 40 (by norm_num)

end Portal
